import Mathlib

/-!
Verification of the checkpointed, concurrent, resumable fetch-and-transform
pipeline that recurs in this repository of bioinformatics utility scripts.
The scripts embedded below are `wget_ftp_gb_asm.py` (parallel FTP genome
downloader with a JSON checkpoint), `nuccore2asm_acc.py` (accession resolver
with retry and backoff), `dwnld_nt_acc_entrez.py` (entrez sequence downloader
with input validation), and `concat_fasta.py` (FASTA concatenator with a
per-file checkpoint).  External effects (subprocess invocations, the
filesystem, exceptions) are modelled by explicit environment records that say
what the outside world does at each interaction point.
-/

/-! ### Python string helpers shared by the scripts -/

namespace Py

/-- Python `str.strip()`: remove leading and trailing whitespace. -/
def strip (s : String) : String :=
  ⟨((s.data.dropWhile Char.isWhitespace).reverse.dropWhile Char.isWhitespace).reverse⟩

/-- Python `str.rstrip(cutset)`: remove trailing characters drawn from the
cutset (a character set, not a suffix -- `"a.fna.gz".rstrip(".gz")` removes
the trailing run of `.`, `g`, `z` characters). -/
def rstrip (cutset : List Char) (s : String) : String :=
  ⟨(s.data.reverse.dropWhile (fun c => cutset.contains c)).reverse⟩

/-- Accumulator pass behind `splitWs`. -/
def splitWsAcc (cur : List Char) : List Char → List String
  | [] => if cur.isEmpty then [] else [⟨cur.reverse⟩]
  | c :: rest =>
    if c.isWhitespace then
      if cur.isEmpty then splitWsAcc [] rest
      else ⟨cur.reverse⟩ :: splitWsAcc [] rest
    else splitWsAcc (c :: cur) rest

/-- Python `str.split()` with no separator: split on runs of whitespace,
discarding empty tokens. -/
def splitWs (s : String) : List String :=
  splitWsAcc [] s.data

/-- Python `os.path.basename`: the part after the last slash. -/
def basename (p : String) : String :=
  ⟨(p.data.reverse.takeWhile (fun c => c ≠ '/')).reverse⟩

/-- Python `str.endswith(suffix)`. -/
def endswith (suffix s : String) : Bool :=
  suffix.data.isSuffixOf s.data

/-- Python `os.path.join` for a relative second component. -/
def pathJoin (a b : String) : String := a ++ "/" ++ b

end Py

/-! ### wget_ftp_gb_asm.py -/

namespace WgetFtp

/-- The `status` strings the script records in the checkpoint. -/
inductive Status
  | download_success
  | download_failed
  | decompress_success
  | decompress_failed
  | unexpected_error
deriving DecidableEq, Repr

/-- One job record in the checkpoint (`status`, `ftp_path`, optional
`local_path`, optional `error`). -/
structure JobRecord where
  status : Status
  ftp_path : String
  local_path : Option String
  error : Option String
deriving DecidableEq, Repr

/-- Checkpoint payload: `total_jobs` plus the `jobs` mapping from the ftp
path to its record (modelled as an association list, keys unique). -/
structure CheckpointData where
  total_jobs : Nat
  jobs : List (String × JobRecord)
deriving DecidableEq, Repr

/-- The terminal-success status a run with the given decompress flag checks
for (lines 109-116). -/
def terminal_status (decompress : Bool) : Status :=
  if decompress then .decompress_success else .download_success

/-- `determine_pending_jobs` (lines 87-118): a path is pending when it has no
checkpoint record, or when its recorded status is not the terminal success
status for the current mode. -/
def determine_pending_jobs (full_paths : List String) (cp : CheckpointData)
    (decompress : Bool) : List String :=
  full_paths.filter fun path =>
    match cp.jobs.lookup path with
    | none => true
    | some job =>
      if decompress then job.status != Status.decompress_success
      else job.status != Status.download_success

/-- What the `subprocess.run` of wget reports (lines 147-167). -/
inductive FetchResult
  | ok
  | calledProcessError (returncode : Int) (stderr : String)
  | timeoutExpired
deriving DecidableEq, Repr

/-- External commands `download_and_process_file` can spawn. -/
inductive Cmd
  | wget (ftp_path : String) (local_path : String)
  | pigz (local_path : String)
deriving DecidableEq, Repr

/-- The outside world for one item: whether the body raises an unexpected
exception, what wget does, the size of the file at the local path after a
wget invocation (`none` means missing), the size of the file at the local
path if wget is not invoked, and whether pigz succeeds. -/
structure Env where
  raised : Option String
  fetch : FetchResult
  sizeAfterFetch : Option Nat
  sizeBefore : Option Nat
  pigzOk : Bool
deriving Repr

/-- Result of one `download_and_process_file` call: the returned record, the
commands spawned in order, and the size of the file sitting at the gz local
path when the call returns (`none` means no file there). -/
structure ProcResult where
  record : JobRecord
  cmds : List Cmd
  destSize : Option Nat
deriving DecidableEq, Repr

/-- Lines 189-216: the decompression stage.  Runs only when decompression is
requested and the local path ends in `.gz`; reruns pigz unless the existing
record already shows `decompress_success`.  A successful pigz removes the gz
file (size becomes `none`). -/
def decompressStage (ftp_path local_path : String) (existingStatus : Option Status)
    (job_result : JobRecord) (decompress : Bool) (cmds : List Cmd)
    (gzSize : Option Nat) (pigzOk : Bool) : ProcResult :=
  if decompress && Py.endswith ".gz" local_path then
    let decompressed_path := Py.rstrip ['.', 'g', 'z'] local_path
    if existingStatus != some Status.decompress_success then
      if pigzOk then
        ⟨{ job_result with status := .decompress_success,
                           local_path := some decompressed_path },
          cmds ++ [.pigz local_path], none⟩
      else
        ⟨⟨.decompress_failed, ftp_path, none,
            some s!"Decompression failed for {ftp_path}"⟩,
          cmds ++ [.pigz local_path], gzSize⟩
    else
      ⟨{ job_result with local_path := some decompressed_path }, cmds, gzSize⟩
  else
    ⟨job_result, cmds, gzSize⟩

/-- Lines 145-183: the fresh-download branch.  wget writes directly to
`local_path`; any failure returns a `download_failed` record without removing
whatever wget left at `local_path`. -/
def downloadBranch (ftp_path local_path : String) (existingStatus : Option Status)
    (decompress : Bool) (timeout : Nat) (env : Env) : ProcResult :=
  match env.fetch with
  | .calledProcessError rc stderr =>
    ⟨⟨.download_failed, ftp_path, none,
        some s!"wget failed with return code {rc}: {stderr}"⟩,
      [.wget ftp_path local_path], env.sizeAfterFetch⟩
  | .timeoutExpired =>
    ⟨⟨.download_failed, ftp_path, none,
        some s!"Download timed out after {timeout} seconds"⟩,
      [.wget ftp_path local_path], env.sizeAfterFetch⟩
  | .ok =>
    if env.sizeAfterFetch = none ∨ env.sizeAfterFetch = some 0 then
      ⟨⟨.download_failed, ftp_path, none,
          some s!"Download failed or empty file for {ftp_path}"⟩,
        [.wget ftp_path local_path], env.sizeAfterFetch⟩
    else
      decompressStage ftp_path local_path existingStatus
        ⟨.download_success, ftp_path, some local_path, none⟩
        decompress [.wget ftp_path local_path] env.sizeAfterFetch env.pigzOk

/-- `download_and_process_file` (lines 121-232).  The whole body sits in a
try/except; an unexpected exception is converted to an `unexpected_error`
record (lines 226-232) and never propagated, which the embedding reflects by
being a total function into `ProcResult`.  A fresh download runs when the
path has no record or a failed one (line 140); otherwise the existing record
and its stored local path are reused (lines 184-187). -/
def download_and_process_file (ftp_path local_path : String) (cp : CheckpointData)
    (decompress : Bool) (timeout : Nat) (env : Env) : ProcResult :=
  match env.raised with
  | some msg => ⟨⟨.unexpected_error, ftp_path, none, some msg⟩, [], env.sizeBefore⟩
  | none =>
    match cp.jobs.lookup ftp_path with
    | none => downloadBranch ftp_path local_path none decompress timeout env
    | some job =>
      if [Status.download_failed, Status.decompress_failed,
          Status.unexpected_error].contains job.status then
        downloadBranch ftp_path local_path (some job.status) decompress timeout env
      else
        let local_path2 := job.local_path.getD (Py.pathJoin local_path (Py.basename ftp_path))
        decompressStage ftp_path local_path2 (some job.status) job decompress []
          env.sizeBefore env.pigzOk

/-- Success counters of the main loop (lines 316-320): downloads count both
success statuses, decompressions only the second. -/
def countSuccesses (results : List JobRecord) : Nat × Nat :=
  results.foldl
    (fun acc r =>
      match r.status with
      | .download_success => (acc.1 + 1, acc.2)
      | .decompress_success => (acc.1 + 1, acc.2 + 1)
      | _ => acc)
    (0, 0)

/-- The summary the script logs at the end (lines 329-332). -/
structure Summary where
  total : Nat
  pending : Nat
  successful_downloads : Nat
  successful_decompressions : Nat
deriving DecidableEq, Repr

/-- One run of the pipeline in `main` (lines 266-332): compute the pending
set against the checkpoint, process each pending path, count successes. -/
def runPipeline (full_paths : List String) (cp : CheckpointData) (decompress : Bool)
    (outdir : String) (envs : String → Env) : Summary :=
  let pending := determine_pending_jobs full_paths cp decompress
  let results := pending.map fun path =>
    (download_and_process_file path (Py.pathJoin outdir (Py.basename path))
      cp decompress 120 (envs path)).record
  let counts := countSuccesses results
  ⟨full_paths.length, pending.length, counts.1, counts.2⟩

/-- Content of the checkpoint file as json load/dump sees it. -/
inductive FileContent
  | absent
  | corrupt
  | data (cp : CheckpointData)
deriving DecidableEq, Repr

/-- `load_checkpoint` (lines 43-63): a missing file or a json parse error
yields the default empty structure instead of aborting. -/
def load_checkpoint : FileContent → CheckpointData
  | .absent => ⟨0, []⟩
  | .corrupt => ⟨0, []⟩
  | .data cp => cp

/-- `save_checkpoint` and the realtime save in the main loop (lines 66-84 and
305-313): the checkpoint file itself is opened for writing, which truncates
it in place, and the json is then written to it.  No temporary file and no
rename are involved, so a crash between truncation and the completed write
leaves a truncated, unparseable file. -/
def save_checkpoint (new : CheckpointData) (crashMidFlush : Bool)
    (_prev : FileContent) : FileContent :=
  if crashMidFlush then .corrupt else .data new

/-- Modelled from the spec: the save the spec asks for writes the serialized
records to a temporary location and atomically renames it over the
checkpoint file, so a crash mid-flush leaves the previous file intact. -/
def atomicSave (new : CheckpointData) (crashMidFlush : Bool)
    (prev : FileContent) : FileContent :=
  if crashMidFlush then prev else .data new

end WgetFtp

/-! ### nuccore2asm_acc.py -/

namespace Nuccore

/-- What one `subprocess.run` of the esearch pipeline does (lines 61,
125-128): it completes with a return code, stdout and stderr, or hits the
60 second timeout, or raises some other exception. -/
inductive AttemptResult
  | completed (returncode : Int) (stdout : String) (stderr : String)
  | timeoutExpired
  | exn (msg : String)
deriving DecidableEq, Repr

/-- Scan for the close tag from inside a candidate match: non-greedy, and the
captured span may not contain a newline because dot does not match one. -/
def takeUntilClose (closeT : String) : List Char → Option (List Char)
  | [] => none
  | c :: rest =>
    if closeT.data.isPrefixOf (c :: rest) then some []
    else if c = '\n' then none
    else (takeUntilClose closeT rest).map (fun l => c :: l)

/-- First match of the Python pattern `<tag>(.*?)</tag>` as used with
`re.findall(...)[0]` (lines 68-81): at each position, if the open tag starts
there and the close tag follows on the same line, capture the span between
them; otherwise move one character forward. -/
def firstTagMatch (openT closeT : String) : List Char → Option String
  | [] => none
  | c :: rest =>
    if openT.data.isPrefixOf (c :: rest) then
      match takeUntilClose closeT (List.drop openT.length (c :: rest)) with
      | some span => some ⟨span⟩
      | none => firstTagMatch openT closeT rest
    else firstTagMatch openT closeT rest

/-- Python truthiness of an optional string: `None` and the empty string are
falsy. -/
def truthy : Option String → Bool
  | none => false
  | some s => !s.isEmpty

/-- `re.match(r'([^_]+)', asm_acc)` (line 100): the leading run of
non-underscore characters, failing when it would be empty. -/
def leadingNonUnderscore (l : List Char) : Option String :=
  match l with
  | [] => none
  | c :: _ => if c = '_' then none else some ⟨l.takeWhile (fun d => d ≠ '_')⟩

/-- `re.search` for an underscore followed by at least `need` digits, as in
the patterns of lines 101-103; the capture keeps `count` digits after
skipping `skip` of them. -/
def searchUnderscoreDigits (need skip count : Nat) : List Char → Option String
  | [] => none
  | c :: rest =>
    if c = '_' && (rest.take need).length = need && (rest.take need).all Char.isDigit then
      some ⟨(rest.drop skip).take count⟩
    else searchUnderscoreDigits need skip count rest

/-- Lines 97-116: derive the FTP path from the assembly accession and name;
any pattern failure raises AttributeError, which is caught, leaving the path
unset. -/
def genFtpPath (asm_acc asm_name : String) : Option String :=
  match leadingNonUnderscore asm_acc.data,
        searchUnderscoreDigits 3 0 3 asm_acc.data,
        searchUnderscoreDigits 6 3 3 asm_acc.data,
        searchUnderscoreDigits 9 6 3 asm_acc.data with
  | some pfx, some level1, some level2, some level3 =>
    some (String.intercalate "/"
      ["ftp://ftp.ncbi.nlm.nih.gov/genomes/all", pfx, level1, level2, level3,
        asm_acc ++ "_" ++ asm_name])
  | _, _, _, _ => none

/-- The quadruple the script returns for one accession. -/
structure AsmInfo where
  asm_acc : Option String
  asm_name : Option String
  asm_species_taxid : Option String
  asm_ftp_path : Option String
deriving DecidableEq, Repr

/-- Lines 65-118: parse the xtract output of a returncode-0 attempt and
regenerate the FTP path when it is missing but accession and name are
present. -/
def parseAsmSummary (stdout : String) : AsmInfo :=
  let output := (Py.strip stdout).data
  let asm_acc := firstTagMatch "<AssemblyAccession>" "</AssemblyAccession>" output
  let asm_name := firstTagMatch "<AssemblyName>" "</AssemblyName>" output
  let asm_species_taxid := firstTagMatch "<SpeciesTaxid>" "</SpeciesTaxid>" output
  let found_ftp := firstTagMatch "<FtpPath_RefSeq>" "</FtpPath_RefSeq>" output
  let asm_ftp_path :=
    if !truthy found_ftp && truthy asm_acc && truthy asm_name then
      match genFtpPath (asm_acc.getD "") (asm_name.getD "") with
      | some p => some p
      | none => found_ftp
    else found_ftp
  ⟨asm_acc, asm_name, asm_species_taxid, asm_ftp_path⟩

/-- The timeout passed to every `subprocess.run` call (line 61), the same on
every attempt. -/
def attemptTimeoutSeconds : Nat := 60

/-- Result of the retry loop: the outcome (`some info` when a returncode-0
attempt returned at line 118, `none` when the loop ran out at line 134), the
`time.sleep` durations performed in order, and the timeout passed to each
subprocess invocation in order. -/
structure LoopResult where
  outcome : Option AsmInfo
  sleeps : List Nat
  calls : List Nat
deriving DecidableEq, Repr

/-- The `for attempt in range(max_retries)` loop of `get_assembly_accession`
(lines 55-131).  A returncode-0 attempt returns at once with no sleep.  A
nonzero return code sleeps `2 ** attempt` (line 123, inside the try) and then
the fixed 1 second pause (line 131).  A timeout or other exception jumps to
its handler, skipping the exponential sleep, and performs only the fixed
1 second pause. -/
def attemptLoop (env : Nat → AttemptResult) : Nat → Nat → LoopResult
  | _, 0 => ⟨none, [], []⟩
  | attempt, fuel + 1 =>
    match env attempt with
    | .completed rc stdout _ =>
      if rc = 0 then ⟨some (parseAsmSummary stdout), [], [attemptTimeoutSeconds]⟩
      else
        let rest := attemptLoop env (attempt + 1) fuel
        ⟨rest.outcome, 2 ^ attempt :: 1 :: rest.sleeps, attemptTimeoutSeconds :: rest.calls⟩
    | .timeoutExpired =>
      let rest := attemptLoop env (attempt + 1) fuel
      ⟨rest.outcome, 1 :: rest.sleeps, attemptTimeoutSeconds :: rest.calls⟩
    | .exn _ =>
      let rest := attemptLoop env (attempt + 1) fuel
      ⟨rest.outcome, 1 :: rest.sleeps, attemptTimeoutSeconds :: rest.calls⟩

/-- `get_assembly_accession` (lines 44-134) with its `max_retries` parameter,
default 3 at the call sites. -/
def get_assembly_accession (env : Nat → AttemptResult) (max_retries : Nat) : LoopResult :=
  attemptLoop env 0 max_retries

/-- An attempt result that counts as a transient failure: nonzero exit,
timeout, or an exception. -/
def isTransientFailure : AttemptResult → Bool
  | .completed rc _ _ => rc != 0
  | .timeoutExpired => true
  | .exn _ => true

/-- Turn a finite plan of attempt results into an environment; attempts past
the plan fail with a nonzero exit. -/
def envOfPlan (plan : List AttemptResult) : Nat → AttemptResult :=
  fun i => plan.getD i (.completed 1 "" "")

/-- Modelled from the spec (RetryPolicy): for each failed attempt, 1-based
number k, sleep `base * 2 ^ (k - 1)` and then the fixed inter-attempt pause. -/
def claimedBackoff (base pause k : Nat) : List Nat :=
  ((List.range k).map fun i => [base * 2 ^ i, pause]).flatten

/-- The sleep sequence the loop performs across `k` consecutive nonzero-exit
attempts, the first at index `start`: the exponential sleep then the fixed
pause, per attempt. -/
def expPauseSleeps : Nat → Nat → List Nat
  | _, 0 => []
  | start, k + 1 => 2 ^ start :: 1 :: expPauseSleeps (start + 1) k

end Nuccore

/-! ### dwnld_nt_acc_entrez.py -/

namespace Entrez

/-- ASCII `[A-Z]`. -/
def isUpperAZ (c : Char) : Bool := 'A' ≤ c && c ≤ 'Z'

/-- The character class `[A-Z0-9]`. -/
def isAccChar (c : Char) : Bool := isUpperAZ c || c.isDigit

/-- The tail `\.\d{1,2}$` of the accession pattern: a dot then one or two
digits, ending the string. -/
def matchVersionTail : List Char → Bool
  | ['.', d] => d.isDigit
  | ['.', d1, d2] => d1.isDigit && d2.isDigit
  | _ => false

/-- Continue the greedy `[A-Z0-9]+` run; the first character outside the
class must start the version tail. -/
def matchBodyRest : List Char → Bool
  | [] => false
  | c :: rest => if isAccChar c then matchBodyRest rest else matchVersionTail (c :: rest)

/-- The body `[A-Z0-9]+` followed by the version tail. -/
def matchBody : List Char → Bool
  | [] => false
  | c :: rest => isAccChar c && matchBodyRest rest

/-- The optional underscore `_?` after the two letters.  The underscore is
not in `[A-Z0-9]`, so the regex is deterministic here: an underscore is
consumed by the option, anything else goes straight to the body. -/
def matchAfterLetters : List Char → Bool
  | '_' :: rest => matchBody rest
  | l => matchBody l

/-- The full pattern `^[A-Z]{2}_?[A-Z0-9]+\.\d{1,2}$`. -/
def matchAccession : List Char → Bool
  | c1 :: c2 :: rest => isUpperAZ c1 && isUpperAZ c2 && matchAfterLetters rest
  | _ => false

/-- `is_valid_ncbi_accession` (lines 53-75): strip the candidate, then match
the anchored pattern. -/
def is_valid_ncbi_accession (accession : String) : Bool :=
  matchAccession (Py.strip accession).data

/-- The string branch of `read_accessions` (lines 117-121): split the input
on whitespace and build the set of tokens passing validation.  The set is
modelled as the deduplicated list of first occurrences. -/
def read_accessions_str (input_source : String) : List String :=
  ((Py.splitWs input_source).filter is_valid_ncbi_accession).dedup

/-- The file branch of `read_accessions` (lines 99-110), applied to the
parsed first column: the same validation filter and set construction. -/
def read_accessions_file (column : List String) : List String :=
  (column.filter is_valid_ncbi_accession).dedup

/-- A filesystem fragment: path to file size. -/
abbrev FS := List (String × Nat)

/-- Remove a path, as `os.remove` does. -/
def removeFile (fs : FS) (p : String) : FS :=
  fs.filter (fun e => e.1 != p)

/-- Create or overwrite a path with a file of the given size. -/
def setFile (fs : FS) (p : String) (n : Nat) : FS :=
  (p, n) :: removeFile fs p

/-- The outside world for one `download_sequence` call: whether the body
raises, the efetch return code, and how many bytes efetch wrote to the
output file. -/
structure DlEnv where
  raised : Option String
  returncode : Int
  bytesWritten : Nat
deriving Repr

/-- `download_sequence` (lines 129-169): efetch stdout is written straight to
the destination path `output_folder/accession.fasta`.  The call returns True
only when the return code is 0 and the file is non-empty; otherwise, and on
any exception, the destination file is removed and the call returns False. -/
def download_sequence (accession output_folder : String) (fs : FS) (env : DlEnv) :
    Bool × FS :=
  let acc := Py.strip accession
  let output_file := Py.pathJoin output_folder (acc ++ ".fasta")
  match env.raised with
  | some _ => (false, removeFile fs output_file)
  | none =>
    let fs1 := setFile fs output_file env.bytesWritten
    if env.returncode = 0 ∧ 0 < env.bytesWritten then (true, fs1)
    else (false, removeFile fs1 output_file)

end Entrez

/-! ### concat_fasta.py -/

namespace ConcatFasta

/-- The `processed_files` mapping of the checkpoint file: file hash to the
recorded entry (the path and timestamp, modelled as one string). -/
abbrev CpMap := List (String × String)

/-- Python dict assignment on the association list: update in place, append
when new. -/
def insertEntry (m : CpMap) (k v : String) : CpMap :=
  if m.any (fun e => e.1 == k) then
    m.map (fun e => if e.1 == k then (k, v) else e)
  else m ++ [(k, v)]

/-- The outside world for one `concat_fasta` call. -/
structure ConcatEnv where
  raised : Option String
deriving Repr

/-- `concat_fasta` (lines 66-113), sequential view.  Returns the boolean
result, the checkpoint content after the call, and whether the output file
was appended to.  A file whose hash is already recorded is skipped (lines
83-88); an unhandled exception yields False (lines 111-113) and never
propagates, which the embedding reflects by being a total function. -/
def concat_fasta (hash : String → String) (input_file : String)
    (checkpoint : Option CpMap) (env : ConcatEnv) : Bool × Option CpMap × Bool :=
  match env.raised with
  | some _ => (false, checkpoint, false)
  | none =>
    let file_hash := hash input_file
    match checkpoint with
    | some cps =>
      if (cps.lookup file_hash).isSome then (true, some cps, false)
      else (true, some (insertEntry cps file_hash input_file), true)
    | none => (true, some (insertEntry [] file_hash input_file), true)

/-- One worker thread of the checkpoint race: the key it will record and the
entry it writes for that key. -/
structure ThreadProg where
  key : String
  entry : String
deriving Repr

/-- The unlocked read step of the checkpoint update (lines 96-100): load the
whole checkpoint file, a missing file reading as empty. -/
def cpReadStep (file : Option CpMap) : CpMap :=
  file.getD []

/-- The unlocked write step (lines 102-108): write back the snapshot this
thread loaded earlier, with its own record inserted.  Records other threads
wrote to the file after this thread took its snapshot are overwritten. -/
def cpWriteStep (snapshot : CpMap) (t : ThreadProg) : CpMap :=
  insertEntry snapshot t.key t.entry

/-- Shared state of two concurrent `concat_fasta` calls: the checkpoint file
plus each thread's loaded snapshot, `none` until that thread has read. -/
structure RaceState where
  file : Option CpMap
  snap1 : Option CpMap
  snap2 : Option CpMap

/-- One scheduler step: the chosen thread performs its next pending step of
the unlocked read-modify-write (read first, then write). -/
def raceStep (t1 t2 : ThreadProg) (s : RaceState) (who : Bool) : RaceState :=
  if who then
    match s.snap2 with
    | none => { s with snap2 := some (cpReadStep s.file) }
    | some snap => { s with file := some (cpWriteStep snap t2) }
  else
    match s.snap1 with
    | none => { s with snap1 := some (cpReadStep s.file) }
    | some snap => { s with file := some (cpWriteStep snap t1) }

/-- Run a schedule, given as the sequence of thread choices. -/
def raceExec (t1 t2 : ThreadProg) (sched : List Bool) (s : RaceState) : RaceState :=
  sched.foldl (raceStep t1 t2) s

end ConcatFasta

/-! ### Helper lemmas -/

/-- After `os.remove`, looking up the removed path finds nothing. -/
theorem lookup_removeFile (fs : Entrez.FS) (p : String) :
    (Entrez.removeFile fs p).lookup p = none := by
  induction fs with
  | nil => rfl
  | cons e fs ih =>
    obtain ⟨k, v⟩ := e
    by_cases h : k = p
    · simpa [Entrez.removeFile, List.filter_cons, h] using ih
    · have h2 : (p == k) = false := beq_eq_false_iff_ne.mpr (Ne.symm h)
      have h3 : (k == p) = false := beq_eq_false_iff_ne.mpr h
      simpa [Entrez.removeFile, List.filter_cons, bne, h2, h3, List.lookup] using ih

/-- Every subprocess invocation of the esearch loop is issued with the same
per-attempt timeout, whatever the attempt index and retry budget. -/
theorem attemptLoop_calls_const (env : Nat → Nuccore.AttemptResult) :
    ∀ (fuel i : Nat), ∀ t ∈ (Nuccore.attemptLoop env i fuel).calls,
      t = Nuccore.attemptTimeoutSeconds := by
  intro fuel
  induction fuel with
  | zero => intro i t ht; simp [Nuccore.attemptLoop] at ht
  | succ n ih =>
    intro i t ht
    rcases henv : env i with ⟨rc, so, se⟩ | _ | msg <;>
      simp only [Nuccore.attemptLoop, henv] at ht
    · by_cases hrc : rc = 0
      · rw [if_pos hrc] at ht
        simpa using ht
      · rw [if_neg hrc] at ht
        rcases List.mem_cons.mp ht with h | h
        · exact h
        · exact ih (i + 1) t h
    · rcases List.mem_cons.mp ht with h | h
      · exact h
      · exact ih (i + 1) t h
    · rcases List.mem_cons.mp ht with h | h
      · exact h
      · exact ih (i + 1) t h

/-- If every attempt the budget allows is a transient failure, the loop falls
through and reports no assembly information. -/
theorem attemptLoop_all_transient (env : Nat → Nuccore.AttemptResult) :
    ∀ (fuel i : Nat), (∀ j, j < fuel → Nuccore.isTransientFailure (env (i + j)) = true) →
      (Nuccore.attemptLoop env i fuel).outcome = none := by
  intro fuel
  induction fuel with
  | zero => intro i _; rfl
  | succ n ih =>
    intro i h
    have h0 := h 0 (Nat.succ_pos n)
    rw [Nat.add_zero] at h0
    have hrest : ∀ j, j < n → Nuccore.isTransientFailure (env (i + 1 + j)) = true := by
      intro j hj
      have := h (j + 1) (Nat.succ_lt_succ hj)
      simpa [Nat.add_assoc, Nat.add_comm 1 j] using this
    rcases henv : env i with ⟨rc, so, se⟩ | _ | msg
    · rw [henv] at h0
      have hrc : ¬rc = 0 := by simpa [Nuccore.isTransientFailure] using h0
      simp [Nuccore.attemptLoop, henv, hrc, ih (i + 1) hrest]
    · simp [Nuccore.attemptLoop, henv, ih (i + 1) hrest]
    · simp [Nuccore.attemptLoop, henv, ih (i + 1) hrest]

/-- `k` consecutive nonzero-exit attempts followed by a returncode-0 attempt:
the loop returns the parse of the successful stdout, having slept the
exponential delay plus the fixed pause after each failed attempt. -/
theorem attemptLoop_fails_then_success (k : Nat) :
    ∀ (env : Nat → Nuccore.AttemptResult) (i fuel : Nat) (out se : String),
      k < fuel →
      (∀ j, j < k → ∃ rc so st, env (i + j) = .completed rc so st ∧ rc ≠ 0) →
      env (i + k) = .completed 0 out se →
      Nuccore.attemptLoop env i fuel =
        ⟨some (Nuccore.parseAsmSummary out), Nuccore.expPauseSleeps i k,
          List.replicate (k + 1) Nuccore.attemptTimeoutSeconds⟩ := by
  induction k with
  | zero =>
    intro env i fuel out se hk hf hs
    cases fuel with
    | zero => exact absurd hk (Nat.lt_irrefl 0)
    | succ m =>
      rw [Nat.add_zero] at hs
      simp [Nuccore.attemptLoop, hs, Nuccore.expPauseSleeps]
  | succ k ih =>
    intro env i fuel out se hk hf hs
    cases fuel with
    | zero => exact absurd hk (Nat.not_lt_zero _)
    | succ m =>
      obtain ⟨rc, so, st, h0, hrc⟩ := hf 0 (Nat.succ_pos k)
      rw [Nat.add_zero] at h0
      have hf' : ∀ j, j < k → ∃ rc so st, env (i + 1 + j) = .completed rc so st ∧ rc ≠ 0 := by
        intro j hj
        have := hf (j + 1) (Nat.succ_lt_succ hj)
        simpa [Nat.add_assoc, Nat.add_comm 1 j] using this
      have hs' : env (i + 1 + k) = .completed 0 out se := by
        simpa [Nat.add_assoc, Nat.add_comm 1 k] using hs
      have hrec := ih env (i + 1) m out se (Nat.lt_of_succ_lt_succ hk) hf' hs'
      simp [Nuccore.attemptLoop, h0, hrc, Nuccore.expPauseSleeps, hrec,
        List.replicate_succ]

/-- Appending one more failed attempt to the exponential-plus-pause sleep
pattern. -/
theorem expPauseSleeps_snoc (k : Nat) :
    ∀ start, Nuccore.expPauseSleeps start (k + 1) =
      Nuccore.expPauseSleeps start k ++ [2 ^ (start + k), 1] := by
  induction k with
  | zero => intro start; simp [Nuccore.expPauseSleeps]
  | succ k ih =>
    intro start
    rw [Nuccore.expPauseSleeps, ih (start + 1), Nuccore.expPauseSleeps]
    simp [Nat.add_assoc, Nat.add_comm 1 k]

/-- The sleeps the code performs on consecutive nonzero-exit failures agree
with the backoff the spec describes, at base 1 and pause 1. -/
theorem expPauseSleeps_eq_claimedBackoff (k : Nat) :
    Nuccore.expPauseSleeps 0 k = Nuccore.claimedBackoff 1 1 k := by
  induction k with
  | zero => rfl
  | succ k ih =>
    rw [expPauseSleeps_snoc, ih]
    simp [Nuccore.claimedBackoff, List.range_succ]

/-! ### Claim theorems -/

/-- C1: rerun idempotence.  If the checkpoint records the terminal-success
status for every input path (the state a fully successful first run leaves
behind), a second run over the same unchanged list computes an empty pending
set -- every key whose record shows terminal success is excluded from
processing -- so it reprocesses zero items and its summary counts zero
successes, with all items skipped (total minus pending equals the total). -/
theorem rerun_idempotence (full_paths : List String) (cp : WgetFtp.CheckpointData)
    (decompress : Bool) (outdir : String) (envs : String → WgetFtp.Env)
    (h : ∀ p ∈ full_paths,
      (cp.jobs.lookup p).map WgetFtp.JobRecord.status
        = some (WgetFtp.terminal_status decompress)) :
    WgetFtp.determine_pending_jobs full_paths cp decompress = [] ∧
    (WgetFtp.runPipeline full_paths cp decompress outdir envs).successful_downloads = 0 ∧
    (WgetFtp.runPipeline full_paths cp decompress outdir envs).successful_decompressions = 0 ∧
    (WgetFtp.runPipeline full_paths cp decompress outdir envs).pending = 0 ∧
    (WgetFtp.runPipeline full_paths cp decompress outdir envs).total = full_paths.length ∧
    (∀ q, (cp.jobs.lookup q).map WgetFtp.JobRecord.status
        = some (WgetFtp.terminal_status decompress) →
      q ∉ WgetFtp.determine_pending_jobs full_paths cp decompress) := by
  have hpend : WgetFtp.determine_pending_jobs full_paths cp decompress = [] := by
    rw [WgetFtp.determine_pending_jobs, List.filter_eq_nil_iff]
    intro p hp
    obtain ⟨job, hjob, hst⟩ := Option.map_eq_some'.mp (h p hp)
    rw [hjob]
    cases decompress with
    | false =>
      simp only [WgetFtp.terminal_status, Bool.false_eq_true, if_false] at hst
      simp [hst]
    | true =>
      simp only [WgetFtp.terminal_status, if_true] at hst
      simp [hst]
  refine ⟨hpend, ?_, ?_, ?_, ?_, ?_⟩
  · simp [WgetFtp.runPipeline, hpend, WgetFtp.countSuccesses]
  · simp [WgetFtp.runPipeline, hpend, WgetFtp.countSuccesses]
  · simp [WgetFtp.runPipeline, hpend]
  · simp [WgetFtp.runPipeline]
  · intro q _ hmem
    rw [hpend] at hmem
    exact absurd hmem (List.not_mem_nil q)

/-- C1 witness: one path already recorded `download_success`; the rerun
without the decompress flag skips it entirely. -/
theorem rerun_idempotence_witness :
    WgetFtp.determine_pending_jobs ["ftp://h/GCF_1"]
      ⟨1, [("ftp://h/GCF_1",
        ⟨.download_success, "ftp://h/GCF_1", some "out/GCF_1_genomic.fna.gz", none⟩)]⟩
      false = [] ∧
    (WgetFtp.runPipeline ["ftp://h/GCF_1"]
      ⟨1, [("ftp://h/GCF_1",
        ⟨.download_success, "ftp://h/GCF_1", some "out/GCF_1_genomic.fna.gz", none⟩)]⟩
      false "out" (fun _ => ⟨none, .ok, some 1, none, true⟩)).successful_downloads = 0 := by
  have h := rerun_idempotence ["ftp://h/GCF_1"]
    ⟨1, [("ftp://h/GCF_1",
      ⟨.download_success, "ftp://h/GCF_1", some "out/GCF_1_genomic.fna.gz", none⟩)]⟩
    false "out" (fun _ => ⟨none, .ok, some 1, none, true⟩)
    (by intro p hp; simp at hp; subst hp; decide)
  exact ⟨h.1, h.2.1⟩

/-- C2: the claim says concurrent checkpoint puts are serialized so the
record count after the run equals the number of completed items.  The
unlocked read-modify-write of concat_fasta (lines 96-108), run from worker
threads, loses a record when two threads interleave: under the schedule
read1, read2, write1, write2 both items complete but the file holds one
record, while the serialized schedule holds both. -/
theorem checkpoint_put_race_loses_record :
    (ConcatFasta.raceExec ⟨"h1", "a.fa"⟩ ⟨"h2", "b.fa"⟩ [false, true, false, true]
        ⟨some [], none, none⟩).file = some [("h2", "b.fa")] ∧
    (ConcatFasta.raceExec ⟨"h1", "a.fa"⟩ ⟨"h2", "b.fa"⟩ [false, false, true, true]
        ⟨some [], none, none⟩).file = some [("h1", "a.fa"), ("h2", "b.fa")] ∧
    ((ConcatFasta.raceExec ⟨"h1", "a.fa"⟩ ⟨"h2", "b.fa"⟩ [false, true, false, true]
        ⟨some [], none, none⟩).file.getD []).length ≠ 2 := by
  refine ⟨rfl, rfl, by decide⟩

/-- C3 counterexample: the claim says a save writes to a temporary location
and atomically renames it, so an interrupted flush leaves the previous
complete state intact.  `save_checkpoint` opens the checkpoint file itself
for writing; a crash mid-flush leaves a truncated, unparseable file, not the
previous state -- unlike the atomic save the spec describes. -/
theorem save_checkpoint_in_place_cex :
    WgetFtp.save_checkpoint
        ⟨2, [("p", ⟨.download_success, "p", some "out/p", none⟩),
             ("q", ⟨.download_success, "q", some "out/q", none⟩)]⟩ true
        (.data ⟨1, [("p", ⟨.download_success, "p", some "out/p", none⟩)]⟩)
      = .corrupt ∧
    WgetFtp.FileContent.corrupt ≠
      WgetFtp.FileContent.data ⟨1, [("p", ⟨.download_success, "p", some "out/p", none⟩)]⟩ ∧
    WgetFtp.atomicSave
        ⟨2, [("p", ⟨.download_success, "p", some "out/p", none⟩),
             ("q", ⟨.download_success, "q", some "out/q", none⟩)]⟩ true
        (.data ⟨1, [("p", ⟨.download_success, "p", some "out/p", none⟩)]⟩)
      = .data ⟨1, [("p", ⟨.download_success, "p", some "out/p", none⟩)]⟩ := by
  refine ⟨rfl, by decide, rfl⟩

/-- C3 amended: every checkpoint persistence step rewrites the checkpoint
file in place (opening it for write truncates it, then the JSON is written);
no temporary file or rename is involved.  A run interrupted mid-flush can
therefore leave a corrupt file; the next run's `load_checkpoint` fails soft
to the empty default, forfeiting -- not preserving -- the previous complete
state, while remaining readable (the run is not aborted). -/
theorem save_checkpoint_crash_amended (new : WgetFtp.CheckpointData)
    (prev : WgetFtp.FileContent) :
    WgetFtp.save_checkpoint new true prev = .corrupt ∧
    WgetFtp.load_checkpoint (WgetFtp.save_checkpoint new true prev) = ⟨0, []⟩ ∧
    WgetFtp.atomicSave new true prev = prev := by
  exact ⟨rfl, rfl, rfl⟩

/-- C4 counterexample: the claim says a failed fetch leaves no truncated
artifact at the destination (write to a temporary name, rename on success,
delete on failure).  The genome downloader points wget directly at the final
destination path and, when wget fails, returns a failure record without
deleting anything: the 5-byte truncated file is still at the destination. -/
theorem partial_artifact_left_cex :
    (WgetFtp.download_and_process_file "ftp://h/a" "out/a" ⟨0, []⟩ false 120
        ⟨none, .calledProcessError 124 "killed", some 5, none, true⟩).record.status
      = .download_failed ∧
    (WgetFtp.download_and_process_file "ftp://h/a" "out/a" ⟨0, []⟩ false 120
        ⟨none, .calledProcessError 124 "killed", some 5, none, true⟩).destSize
      = some 5 ∧
    (WgetFtp.download_and_process_file "ftp://h/a" "out/a" ⟨0, []⟩ false 120
        ⟨none, .calledProcessError 124 "killed", some 5, none, true⟩).cmds
      = [.wget "ftp://h/a" "out/a"] := by
  exact ⟨rfl, rfl, rfl⟩

/-- C4 amended: neither downloader uses a temporary name -- both write
directly to the final destination.  The entrez downloader removes the
destination file whenever the fetch fails (nonzero exit, empty output, or an
exception), so no truncated artifact remains after the call; the genome
downloader leaves whatever wget wrote at the destination when the fetch
fails or times out, removing nothing. -/
theorem failed_fetch_artifact_amended
    (acc folder : String) (fs : Entrez.FS) (denv : Entrez.DlEnv)
    (hfail : ¬(denv.raised = none ∧ denv.returncode = 0 ∧ 0 < denv.bytesWritten))
    (ftp lp : String) (cp : WgetFtp.CheckpointData) (dec : Bool) (t : Nat)
    (wenv : WgetFtp.Env) (hw : wenv.raised = none)
    (hnew : cp.jobs.lookup ftp = none)
    (hfetch : wenv.fetch = .timeoutExpired ∨
      ∃ rc se, wenv.fetch = .calledProcessError rc se) :
    (Entrez.download_sequence acc folder fs denv).1 = false ∧
    (Entrez.download_sequence acc folder fs denv).2.lookup
        (Py.pathJoin folder (Py.strip acc ++ ".fasta")) = none ∧
    (WgetFtp.download_and_process_file ftp lp cp dec t wenv).record.status
      = .download_failed ∧
    (WgetFtp.download_and_process_file ftp lp cp dec t wenv).destSize
      = wenv.sizeAfterFetch := by
  have hwget : (WgetFtp.download_and_process_file ftp lp cp dec t wenv).record.status
        = .download_failed ∧
      (WgetFtp.download_and_process_file ftp lp cp dec t wenv).destSize
        = wenv.sizeAfterFetch := by
    rcases hfetch with hfe | ⟨rc, se, hfe⟩ <;>
      simp [WgetFtp.download_and_process_file, hw, hnew, WgetFtp.downloadBranch, hfe]
  rcases hr : denv.raised with _ | msg
  · have hcond : ¬(denv.returncode = 0 ∧ 0 < denv.bytesWritten) := by
      intro hc
      exact hfail ⟨hr, hc.1, hc.2⟩
    refine ⟨?_, ?_, hwget.1, hwget.2⟩
    · simp [Entrez.download_sequence, hr, hcond]
    · simp [Entrez.download_sequence, hr, hcond, lookup_removeFile]
  · refine ⟨?_, ?_, hwget.1, hwget.2⟩
    · simp [Entrez.download_sequence, hr]
    · simp [Entrez.download_sequence, hr, lookup_removeFile]

/-- C4 amended witness: a nonzero-exit efetch leaves no file, and a timed-out
wget leaves the 7-byte partial file at the destination. -/
theorem failed_fetch_artifact_amended_witness :
    (Entrez.download_sequence "NC_1.1" "out" [] ⟨none, 1, 0⟩).1 = false ∧
    (Entrez.download_sequence "NC_1.1" "out" [] ⟨none, 1, 0⟩).2.lookup
        (Py.pathJoin "out" (Py.strip "NC_1.1" ++ ".fasta")) = none ∧
    (WgetFtp.download_and_process_file "f" "o" ⟨0, []⟩ false 120
        ⟨none, .timeoutExpired, some 7, none, true⟩).destSize = some 7 := by
  have h := failed_fetch_artifact_amended "NC_1.1" "out" [] ⟨none, 1, 0⟩
    (fun hc => absurd hc.2.1 (by decide))
    "f" "o" ⟨0, []⟩ false 120 ⟨none, .timeoutExpired, some 7, none, true⟩
    rfl rfl (Or.inl rfl)
  exact ⟨h.1, h.2.1, h.2.2.2⟩

/-- C5 counterexample: the claim says every transient failure is followed by
the exponential backoff delay plus the fixed pause.  A timed-out attempt is
a transient failure, but jumps to the except handler past the exponential
sleep (line 123 is inside the try), so only the fixed 1 second pause is
slept: the run sleeps `[1]` where the claimed policy sleeps `[1, 1]`. -/
theorem timeout_backoff_cex :
    (Nuccore.get_assembly_accession (Nuccore.envOfPlan
        [.timeoutExpired, .completed 0 "x" ""]) 3).sleeps = [1] ∧
    Nuccore.claimedBackoff 1 1 1 = [1, 1] ∧
    (Nuccore.get_assembly_accession (Nuccore.envOfPlan
        [.timeoutExpired, .completed 0 "x" ""]) 3).outcome.isSome = true := by
  exact ⟨rfl, rfl, rfl⟩

/-- C5 amended: bounded retry with exponential backoff holds for nonzero-exit
transient failures.  An item whose first k < N attempts exit nonzero and
whose next attempt returns 0 yields the parsed success outcome, having slept
exactly the claimed `base * 2 ^ (attemptNumber - 1)` plus the fixed pause
(base 1 second, pause 1 second) after each failure; an item whose N attempts
all fail transiently (nonzero exit, timeout, or exception) yields the
failure quadruple.  Timed-out attempts, however, sleep only the fixed pause
(see the counterexample). -/
theorem retry_backoff_amended (env : Nat → Nuccore.AttemptResult) (k n : Nat)
    (out se : String) (hk : k < n)
    (hf : ∀ j, j < k → ∃ rc so st, env j = .completed rc so st ∧ rc ≠ 0)
    (hs : env k = .completed 0 out se) :
    (Nuccore.get_assembly_accession env n).outcome
      = some (Nuccore.parseAsmSummary out) ∧
    (Nuccore.get_assembly_accession env n).sleeps = Nuccore.claimedBackoff 1 1 k ∧
    (∀ env2 : Nat → Nuccore.AttemptResult,
      (∀ j, j < n → Nuccore.isTransientFailure (env2 j) = true) →
      (Nuccore.get_assembly_accession env2 n).outcome = none) := by
  have hf0 : ∀ j, j < k → ∃ rc so st, env (0 + j) = .completed rc so st ∧ rc ≠ 0 := by
    simpa using hf
  have hs0 : env (0 + k) = .completed 0 out se := by simpa using hs
  have h := attemptLoop_fails_then_success k env 0 n out se hk hf0 hs0
  refine ⟨?_, ?_, ?_⟩
  · rw [Nuccore.get_assembly_accession, h]
  · rw [Nuccore.get_assembly_accession, h]
    exact expPauseSleeps_eq_claimedBackoff k
  · intro env2 h2
    have h2' : ∀ j, j < n → Nuccore.isTransientFailure (env2 (0 + j)) = true := by
      simpa using h2
    exact attemptLoop_all_transient env2 n 0 h2'

/-- C5 amended witness: one nonzero-exit failure then success, at the default
budget of 3 attempts. -/
theorem retry_backoff_amended_witness :
    (Nuccore.get_assembly_accession (Nuccore.envOfPlan
        [.completed 1 "" "err", .completed 0 "y" ""]) 3).outcome
      = some (Nuccore.parseAsmSummary "y") ∧
    (Nuccore.get_assembly_accession (Nuccore.envOfPlan
        [.completed 1 "" "err", .completed 0 "y" ""]) 3).sleeps
      = Nuccore.claimedBackoff 1 1 1 := by
  have h := retry_backoff_amended (Nuccore.envOfPlan
      [.completed 1 "" "err", .completed 0 "y" ""]) 1 3 "y" ""
    (by decide)
    (by
      intro j hj
      interval_cases j
      exact ⟨1, "", "err", rfl, by decide⟩)
    rfl
  exact ⟨h.1, h.2.1⟩

/-- C6: a timed-out attempt is transient.  The per-attempt subprocess
timeout (60 seconds) is passed to every invocation whatever the attempt
index or retry budget, and an attempt that raises TimeoutExpired does not
fail the item: the loop continues with the remaining attempts, recording
only the fixed pause, and the item's outcome is whatever those remaining
attempts produce. -/
theorem timeout_is_transient (env : Nat → Nuccore.AttemptResult) (i fuel : Nat)
    (ht : env i = .timeoutExpired) :
    (Nuccore.attemptLoop env i (fuel + 1)).outcome
      = (Nuccore.attemptLoop env (i + 1) fuel).outcome ∧
    (Nuccore.attemptLoop env i (fuel + 1)).sleeps
      = 1 :: (Nuccore.attemptLoop env (i + 1) fuel).sleeps ∧
    (Nuccore.attemptLoop env i (fuel + 1)).calls
      = Nuccore.attemptTimeoutSeconds :: (Nuccore.attemptLoop env (i + 1) fuel).calls ∧
    (∀ env2 : Nat → Nuccore.AttemptResult, ∀ n : Nat,
      ∀ t ∈ (Nuccore.get_assembly_accession env2 n).calls,
        t = Nuccore.attemptTimeoutSeconds) := by
  refine ⟨?_, ?_, ?_, ?_⟩
  · simp [Nuccore.attemptLoop, ht]
  · simp [Nuccore.attemptLoop, ht]
  · simp [Nuccore.attemptLoop, ht]
  · intro env2 n t htc
    exact attemptLoop_calls_const env2 n 0 t htc

/-- C6 witness: a timeout on the first attempt followed by a returncode-0
attempt still yields the parsed success outcome. -/
theorem timeout_is_transient_witness :
    (Nuccore.get_assembly_accession (Nuccore.envOfPlan
        [.timeoutExpired, .completed 0 "z" ""]) 3).outcome
      = some (Nuccore.parseAsmSummary "z") := by
  have h := timeout_is_transient (Nuccore.envOfPlan
    [.timeoutExpired, .completed 0 "z" ""]) 0 2 rfl
  exact h.1.trans rfl

/-- C7: zero-byte artifact rejection.  A wget run that exits 0 while the
destination file is missing or empty yields a `download_failed` record, and
an efetch that exits 0 while having written zero bytes returns False and
removes the empty destination file. -/
theorem zero_byte_rejection (ftp lp : String) (cp : WgetFtp.CheckpointData)
    (dec : Bool) (t : Nat) (wenv : WgetFtp.Env)
    (hw : wenv.raised = none) (hnew : cp.jobs.lookup ftp = none)
    (hok : wenv.fetch = .ok)
    (hempty : wenv.sizeAfterFetch = none ∨ wenv.sizeAfterFetch = some 0)
    (acc folder : String) (fs : Entrez.FS) (denv : Entrez.DlEnv)
    (he : denv.raised = none) (hrc : denv.returncode = 0) (hb : denv.bytesWritten = 0) :
    (WgetFtp.download_and_process_file ftp lp cp dec t wenv).record.status
      = .download_failed ∧
    (Entrez.download_sequence acc folder fs denv).1 = false ∧
    (Entrez.download_sequence acc folder fs denv).2.lookup
        (Py.pathJoin folder (Py.strip acc ++ ".fasta")) = none := by
  refine ⟨?_, ?_, ?_⟩
  · rcases hempty with h0 | h0 <;>
      simp [WgetFtp.download_and_process_file, hw, hnew, WgetFtp.downloadBranch, hok, h0]
  · simp [Entrez.download_sequence, he, hrc, hb]
  · simp [Entrez.download_sequence, he, hrc, hb, lookup_removeFile]

/-- C7 witness: concrete empty-download cases for both scripts. -/
theorem zero_byte_rejection_witness :
    (WgetFtp.download_and_process_file "ftp://h/b" "out/b" ⟨0, []⟩ false 120
        ⟨none, .ok, some 0, none, true⟩).record.status = .download_failed ∧
    (Entrez.download_sequence "NC_2.1" "out" [("out/NC_2.1.fasta", 3)]
        ⟨none, 0, 0⟩).1 = false := by
  have h := zero_byte_rejection "ftp://h/b" "out/b" ⟨0, []⟩ false 120
    ⟨none, .ok, some 0, none, true⟩ rfl rfl rfl (Or.inr rfl)
    "NC_2.1" "out" [("out/NC_2.1.fasta", 3)] ⟨none, 0, 0⟩ rfl rfl rfl
  exact ⟨h.1, h.2.1⟩

/-- C8: exception containment at the item boundary.  An unexpected exception
in the genome downloader's per-item body is converted to an
`unexpected_error` record carrying the exception message, with no external
command run, and the embedded processors are total functions -- the
exception is never propagated; the concat worker likewise returns False
instead of raising. -/
theorem exception_containment (ftp lp : String) (cp : WgetFtp.CheckpointData)
    (dec : Bool) (t : Nat) (wenv : WgetFtp.Env) (msg : String)
    (hw : wenv.raised = some msg)
    (hash : String → String) (inp : String) (cpm : Option ConcatFasta.CpMap)
    (cenv : ConcatFasta.ConcatEnv) (msg2 : String) (hc : cenv.raised = some msg2) :
    (WgetFtp.download_and_process_file ftp lp cp dec t wenv).record
      = ⟨.unexpected_error, ftp, none, some msg⟩ ∧
    (WgetFtp.download_and_process_file ftp lp cp dec t wenv).cmds = [] ∧
    (ConcatFasta.concat_fasta hash inp cpm cenv).1 = false := by
  refine ⟨?_, ?_, ?_⟩
  · simp [WgetFtp.download_and_process_file, hw]
  · simp [WgetFtp.download_and_process_file, hw]
  · simp [ConcatFasta.concat_fasta, hc]

/-- C8 witness: a concrete exception is contained in both scripts. -/
theorem exception_containment_witness :
    (WgetFtp.download_and_process_file "ftp://h/c" "out/c" ⟨0, []⟩ false 120
        ⟨some "boom", .ok, some 1, none, true⟩).record
      = ⟨.unexpected_error, "ftp://h/c", none, some "boom"⟩ ∧
    (ConcatFasta.concat_fasta (fun s => s) "a.fa" (some []) ⟨some "boom"⟩).1 = false := by
  have h := exception_containment "ftp://h/c" "out/c" ⟨0, []⟩ false 120
    ⟨some "boom", .ok, some 1, none, true⟩ "boom" rfl
    (fun s => s) "a.fa" (some []) ⟨some "boom"⟩ "boom" rfl
  exact ⟨h.1, h.2.2⟩

/-- C9: decompress-only resumption.  A record with status `download_success`
is re-enqueued as pending when decompression is requested, and processing it
skips the fetch entirely: the only command run is pigz on the local path
stored in the prior record, and the result upgrades the record to
`decompress_success` with the decompressed path. -/
theorem decompress_only_resumption (full_paths : List String)
    (ftp outPath lp : String) (cp : WgetFtp.CheckpointData)
    (job : WgetFtp.JobRecord) (env : WgetFtp.Env) (t : Nat)
    (hmem : ftp ∈ full_paths)
    (hjob : cp.jobs.lookup ftp = some job)
    (hstatus : job.status = .download_success)
    (hlp : job.local_path = some lp)
    (hgz : Py.endswith ".gz" lp = true)
    (hraise : env.raised = none)
    (hpigz : env.pigzOk = true) :
    ftp ∈ WgetFtp.determine_pending_jobs full_paths cp true ∧
    (WgetFtp.download_and_process_file ftp outPath cp true t env).cmds
      = [.pigz lp] ∧
    (WgetFtp.download_and_process_file ftp outPath cp true t env).record.status
      = .decompress_success ∧
    (WgetFtp.download_and_process_file ftp outPath cp true t env).record.local_path
      = some (Py.rstrip ['.', 'g', 'z'] lp) := by
  have hproc : WgetFtp.download_and_process_file ftp outPath cp true t env =
      ⟨{ job with status := .decompress_success,
                  local_path := some (Py.rstrip ['.', 'g', 'z'] lp) },
        [.pigz lp], none⟩ := by
    simp [WgetFtp.download_and_process_file, hraise, hjob, hstatus,
      WgetFtp.decompressStage, hlp, hgz, hpigz]
  refine ⟨?_, by rw [hproc], by rw [hproc], by rw [hproc]⟩
  rw [WgetFtp.determine_pending_jobs, List.mem_filter]
  refine ⟨hmem, ?_⟩
  simp [hjob, hstatus]

/-- C9 witness: an item downloaded by a prior run is decompressed without a
new wget invocation. -/
theorem decompress_only_resumption_witness :
    "ftp://h/GCF_1" ∈ WgetFtp.determine_pending_jobs ["ftp://h/GCF_1"]
      ⟨1, [("ftp://h/GCF_1", ⟨.download_success, "ftp://h/GCF_1",
        some "out/GCF_1_genomic.fna.gz", none⟩)]⟩ true ∧
    (WgetFtp.download_and_process_file "ftp://h/GCF_1" "out/GCF_1_genomic.fna.gz"
      ⟨1, [("ftp://h/GCF_1", ⟨.download_success, "ftp://h/GCF_1",
        some "out/GCF_1_genomic.fna.gz", none⟩)]⟩ true 120
      ⟨none, .ok, none, some 9, true⟩).cmds
      = [.pigz "out/GCF_1_genomic.fna.gz"] := by
  have h := decompress_only_resumption ["ftp://h/GCF_1"] "ftp://h/GCF_1"
    "out/GCF_1_genomic.fna.gz" "out/GCF_1_genomic.fna.gz"
    ⟨1, [("ftp://h/GCF_1", ⟨.download_success, "ftp://h/GCF_1",
      some "out/GCF_1_genomic.fna.gz", none⟩)]⟩
    ⟨.download_success, "ftp://h/GCF_1", some "out/GCF_1_genomic.fna.gz", none⟩
    ⟨none, .ok, none, some 9, true⟩ 120
    (by decide) rfl rfl rfl (by decide) rfl rfl
  exact ⟨h.1, h.2.1⟩

/-- C10: input deduplication and silent validation filtering.  For the
string input branch, the accession set is duplicate-free, a token is in it
exactly when it occurs in the whitespace-split input and matches the NCBI
accession pattern, and each token is submitted at most once; for the file
branch, the same holds of the parsed column, and a token failing validation
is silently excluded. -/
theorem read_accessions_dedup_and_filter (s t : String) (column : List String) :
    (Entrez.read_accessions_str s).Nodup ∧
    (t ∈ Entrez.read_accessions_str s ↔
      t ∈ Py.splitWs s ∧ Entrez.is_valid_ncbi_accession t = true) ∧
    (Entrez.read_accessions_str s).count t ≤ 1 ∧
    (Entrez.read_accessions_file column).Nodup ∧
    (Entrez.is_valid_ncbi_accession t = false →
      t ∉ Entrez.read_accessions_file column) := by
  refine ⟨List.nodup_dedup _, ?_, ?_, List.nodup_dedup _, ?_⟩
  · rw [Entrez.read_accessions_str, List.mem_dedup, List.mem_filter]
  · exact List.nodup_iff_count_le_one.mp (List.nodup_dedup _) t
  · intro hinvalid hmem
    rw [Entrez.read_accessions_file, List.mem_dedup, List.mem_filter] at hmem
    rw [hinvalid] at hmem
    exact Bool.false_ne_true hmem.2

/-- C10 witness: a duplicated valid accession appears once; an invalid token
is silently dropped from the file branch. -/
theorem read_accessions_dedup_and_filter_witness :
    "NC_000913.3" ∈ Entrez.read_accessions_str "NC_000913.3 foo NC_000913.3" ∧
    "foo" ∉ Entrez.read_accessions_file ["foo", "NC_000913.3"] := by
  refine ⟨?_, ?_⟩
  · exact (read_accessions_dedup_and_filter "NC_000913.3 foo NC_000913.3"
      "NC_000913.3" []).2.1.mpr (by decide)
  · exact (read_accessions_dedup_and_filter "" "foo"
      ["foo", "NC_000913.3"]).2.2.2.2 (by decide)
